import Mathlib

/-!
# Verification of the flickr-api client (`src/index.ts`)

A shallow embedding of the normalization and transport logic of the
flickr-api module, together with proofs of its specified properties.

Modelling conventions:
* JSON field access on duck-typed response records is modelled by `JsValue`
  and association lists `List (String × JsValue)` in insertion order
  (`Object.keys` enumerates non-index string keys in insertion order, and the
  keys of a JS object are distinct).  A lookup of an absent key yields
  `JsValue.undef`, mirroring JavaScript's `undefined`.
* `parseInt` on the upstream's numeric width/height strings is modelled by
  keeping the parsed integers directly (`Int`) in `SizeEntry`.
* The asynchronous HTTP layer (`axios.get`) is modelled by an oracle
  `http : String → Nat → Except ε α` giving the outcome of each attempt
  (by URL and attempt index); `Promise` results become `Except`/`Option`.
* `Array.prototype.sort` with comparator `(a, b) => b.width - a.width` is a
  stable sort by width descending, modelled by `List.mergeSort` with the
  relation `b.width ≤ a.width`.
-/

namespace Flickr

/-- A JavaScript value as it occurs in the duck-typed recent-photos records:
a string, a number, or `undefined` (for an absent field). -/
inductive JsValue where
  | str (s : String)
  | num (n : Int)
  | undef
deriving DecidableEq, Repr

/-- JavaScript property read `p[key]` on a record modelled as an association
list: the value of the first matching key, `undefined` when absent. -/
def jsGet (p : List (String × JsValue)) (key : String) : JsValue :=
  match p.find? (fun kv => kv.1 == key) with
  | some kv => kv.2
  | none => JsValue.undef

/-- JavaScript string coercion, as used in template literals. -/
def jsToString : JsValue → String
  | JsValue.str s => s
  | JsValue.num n => toString n
  | JsValue.undef => "undefined"

def FLICKR_URL_BASE : String := "https://www.flickr.com/photos/"

def FLICKR_API_BASE_URL : String := "https://api.flickr.com/services/rest/"

def FLICKR_BASE_PARAMETERS : String := "?format=json&nojsoncallback=1"

/-- The allow-list of size labels kept by the size reduction
(`WANTED_IMAGE_SIZES` in the source, a `Set` of six labels). -/
def WANTED_IMAGE_SIZES : List String :=
  ["Medium", "Medium 640", "Medium 800", "Large", "Large 1600", "Large 2048"]

/-- One entry of `sizesResponse.sizes.size`: the upstream label, the image
URL (`source`), and the pixel dimensions (post-`parseInt`). -/
structure SizeEntry where
  label : String
  source : String
  width : Int
  height : Int
deriving DecidableEq, Repr

/-- The shape of a `flickr.photos.getSizes` response that
`buildSizesSources` reads: the list `sizesResponse.sizes.size`. -/
structure SizesResponse where
  size : List SizeEntry
deriving DecidableEq, Repr

/-- One normalized image variant (`PhotoSource` in the source). -/
structure PhotoSource where
  url : String
  width : Int
  height : Int
deriving DecidableEq, Repr

/-- `buildSizesSources`: keep the size entries whose label is in
`WANTED_IMAGE_SIZES`, map each to a `PhotoSource`, and sort by width
descending (JS comparator `(a, b) => b.width - a.width`, stable). -/
def buildSizesSources (sizesResponse : SizesResponse) : List PhotoSource :=
  ((sizesResponse.size.filter
      (fun el => WANTED_IMAGE_SIZES.contains el.label)).map
    (fun el => PhotoSource.mk el.source el.width el.height)).mergeSort
    (fun a b => decide (b.width ≤ a.width))

/-- The `PhotoSource` built from one size entry by `buildSizesSources`'s map
step. -/
def sourceOfEntry (el : SizeEntry) : PhotoSource :=
  PhotoSource.mk el.source el.width el.height

/-- One entry of the `photoset.photo` list of a
`flickr.photosets.getPhotos` response, as read by `getPhotoSet`. -/
structure PhotoListEntry where
  id : String
  title : String
deriving DecidableEq, Repr

/-- The fields of a `flickr.photosets.getPhotos` response that
`getPhotoSet` reads: `photoset.owner` and `photoset.photo`. -/
structure PhotoSetResponse where
  owner : String
  photo : List PhotoListEntry
deriving DecidableEq, Repr

/-- The normalized `Photo` record of the sizes-based paths.  At runtime
`mainSource` is `undefined` when no size passed the filter
(`photoSources[photoSources.length - 1]` on an empty array), modelled by
`Option`. -/
structure Photo where
  id : String
  pageUrl : String
  title : String
  mainSource : Option PhotoSource
  sources : List PhotoSource
deriving DecidableEq, Repr

/-- The `Photo` that `getPhotoSet` builds for one list entry from its
`flickr.photos.getSizes` response. -/
def mkSetPhoto (owner : String) (p : PhotoListEntry)
    (sizes : SizesResponse) : Photo :=
  let photoSources := buildSizesSources sizes
  let mainSource := photoSources.getLast?
  { id := p.id
    title := p.title
    pageUrl := FLICKR_URL_BASE ++ owner ++ "/" ++ p.id ++ "/"
    sources := photoSources
    mainSource := mainSource }

/-- `getPhotoSet` after the photo-set fetch: one concurrent
`flickr.photos.getSizes` call per photo (its outcome given by `sizeFetch`,
modelling `callFlickr` after retry exhaustion), joined by `Promise.all`,
which fails whenever any sub-fetch fails. -/
def getPhotoSet (photosResponse : PhotoSetResponse)
    (sizeFetch : String → Except String SizesResponse) :
    Except String (List Photo) :=
  photosResponse.photo.mapM
    (fun p => (sizeFetch p.id).map (mkSetPhoto photosResponse.owner p))

/-- One entry of `photo.urls.url` in a `flickr.photos.getInfo` response:
its type tag and its `_content`. -/
structure UrlEntry where
  type : String
  content : String
deriving DecidableEq, Repr

/-- The fields of a `flickr.photos.getInfo` response that `getPhoto`
reads: `photo.title._content` and `photo.urls.url`. -/
structure InfoResponse where
  title : String
  urls : List UrlEntry
deriving DecidableEq, Repr

/-- `getPhoto` given its two fetched responses.  `filter(...)[0]._content`
reads `_content` of the first "photopage" entry; when no entry matches,
the access on `undefined` throws and the promise rejects, modelled by
`none`. -/
def getPhoto (photo_id : String) (infoResponse : InfoResponse)
    (sizesResponse : SizesResponse) : Option Photo :=
  let sources := buildSizesSources sizesResponse
  let mainSource := sources.getLast?
  match (infoResponse.urls.filter (fun u => u.type == "photopage")).head? with
  | some u => some
      { id := photo_id
        title := infoResponse.title
        pageUrl := u.content
        sources := sources
        mainSource := mainSource }
  | none => none

/-- The per-size record pushed by `buildRecentSources`: raw JS values, so
an absent `width_<k>`/`height_<k>` field shows up as `undefined`. -/
structure RecentSource where
  url : JsValue
  height : JsValue
  width : JsValue
deriving DecidableEq, Repr

/-- JavaScript's `key.startsWith("url_")`, computed on the underlying
character lists so that concrete instances reduce in the kernel. -/
def strStartsWith (s pre : String) : Bool :=
  pre.data.isPrefixOf s.data

/-- `buildRecentSources`: iterate `Object.keys(photoResponse)` in
insertion order; for each key starting with `url_` push one entry built
from `p[key]`, `p[height_<sizeKey>]`, `p[width_<sizeKey>]`.  The source's
`key.replace("url_", "")` removes the first occurrence of `url_`, which
under the `startsWith` guard is the 4-character prefix, i.e. `key.drop 4`. -/
def buildRecentSources (photoResponse : List (String × JsValue)) :
    List RecentSource :=
  (photoResponse.map Prod.fst).foldl
    (fun result key =>
      if strStartsWith key "url_" then
        let sizeKey := key.drop 4
        result ++ [RecentSource.mk (jsGet photoResponse key)
          (jsGet photoResponse ("height_" ++ sizeKey))
          (jsGet photoResponse ("width_" ++ sizeKey))]
      else result)
    []

/-- The `Photo` shape built by `getRecentPhotos`: `mainSource` is always
the object literal built from the `url_c`/`height_c`/`width_c` fields
(never `undefined`, though its fields may each be `undefined`). -/
structure RecentPhoto where
  id : JsValue
  pageUrl : String
  title : JsValue
  mainSource : RecentSource
  sources : List RecentSource
deriving DecidableEq, Repr

/-- The `Photo` that `getRecentPhotos` builds for one record of
`response.photos.photo`. -/
def mkRecentPhoto (p : List (String × JsValue)) : RecentPhoto :=
  { id := jsGet p "id"
    pageUrl := FLICKR_URL_BASE ++ jsToString (jsGet p "owner") ++ "/"
      ++ jsToString (jsGet p "id") ++ "/"
    title := jsGet p "title"
    mainSource := RecentSource.mk (jsGet p "url_c") (jsGet p "height_c")
      (jsGet p "width_c")
    sources := buildRecentSources p }

/-- `getRecentPhotos` after its single fetch: map `mkRecentPhoto` over
`response.photos.photo`. -/
def getRecentPhotos (photos : List (List (String × JsValue))) :
    List RecentPhoto :=
  photos.map mkRecentPhoto

/-- The GET URL built by `callFlickr` from the base URL, base parameters,
API key, method name and the parameters in key insertion order. -/
def buildFlickrUrl (apiKey : String) (methodName : String)
    (params : List (String × String)) : String :=
  FLICKR_API_BASE_URL ++ FLICKR_BASE_PARAMETERS ++ "&api_key=" ++ apiKey
    ++ "&"
    ++ params.foldl (fun paramsStr kv => paramsStr ++ "&" ++ kv.1 ++ "=" ++ kv.2)
      ("method=" ++ methodName)

/-- `callFlickr`: attempt the GET (the outcome of attempt `n` on a URL is
`http url n`); on failure retry the identical call while `retryNumber < 2`,
otherwise rethrow the error unchanged (the URL is only written to the
error log). -/
def callFlickr {α : Type} (http : String → Nat → Except String α)
    (apiKey : String) (methodName : String)
    (params : List (String × String)) (retryNumber : Nat) :
    Except String α :=
  let url := buildFlickrUrl apiKey methodName params
  match http url retryNumber with
  | Except.ok result => Except.ok result
  | Except.error err =>
    if _h : retryNumber < 2 then
      callFlickr http apiKey methodName params (retryNumber + 1)
    else
      Except.error err
termination_by 3 - retryNumber
decreasing_by omega

/-- The end-to-end example from the spec: labels
Thumbnail/Medium/Large/Original with widths 100/500/1024/3000. -/
def exampleSizes : SizesResponse :=
  SizesResponse.mk
    [SizeEntry.mk "Thumbnail" "http://t" 100 66,
     SizeEntry.mk "Medium" "http://m" 500 333,
     SizeEntry.mk "Large" "http://l" 1024 683,
     SizeEntry.mk "Original" "http://o" 3000 2000]

/-- An info response with a non-photopage entry first and two photopage
entries. -/
def exampleInfo : InfoResponse :=
  InfoResponse.mk "title"
    [UrlEntry.mk "license" "https://x",
     UrlEntry.mk "photopage" "https://p1",
     UrlEntry.mk "photopage" "https://p2"]

/-- A recent-photos record with a `url_z` field but neither `width_z` nor
`height_z`. -/
def recentRecordNoDims : List (String × JsValue) :=
  [("id", JsValue.str "9"), ("url_z", JsValue.str "https://z")]

/-- A recent-photos record carrying only the z size (no `url_c` fields). -/
def recentRecordZ : List (String × JsValue) :=
  [("id", JsValue.str "11"), ("owner", JsValue.str "own"),
   ("title", JsValue.str "t"),
   ("url_z", JsValue.str "https://z"), ("width_z", JsValue.num 640),
   ("height_z", JsValue.num 480)]

/-- A recent-photos record with the z size (width 640) declared before the
c size (width 800). -/
def recentRecordZC : List (String × JsValue) :=
  [("id", JsValue.str "12"), ("owner", JsValue.str "own"),
   ("title", JsValue.str "t"),
   ("url_z", JsValue.str "https://z"), ("width_z", JsValue.num 640),
   ("height_z", JsValue.num 480),
   ("url_c", JsValue.str "https://c"), ("width_c", JsValue.num 800),
   ("height_c", JsValue.num 600)]

end Flickr

namespace Flickr

lemma buildSizesSources_perm (r : SizesResponse) :
    List.Perm (buildSizesSources r)
      ((r.size.filter (fun el => WANTED_IMAGE_SIZES.contains el.label)).map
        sourceOfEntry) := by
  simpa [buildSizesSources, sourceOfEntry] using
    List.mergeSort_perm
      ((r.size.filter (fun el => WANTED_IMAGE_SIZES.contains el.label)).map
        sourceOfEntry)
      (fun a b => decide (b.width ≤ a.width))

lemma mem_buildSizesSources {r : SizesResponse} {s : PhotoSource} :
    s ∈ buildSizesSources r ↔
      ∃ el ∈ r.size, WANTED_IMAGE_SIZES.contains el.label ∧
        s = sourceOfEntry el := by
  rw [(buildSizesSources_perm r).mem_iff]
  simp only [List.mem_map, List.mem_filter]
  constructor
  · rintro ⟨el, ⟨hmem, hlab⟩, rfl⟩
    exact ⟨el, hmem, hlab, rfl⟩
  · rintro ⟨el, hmem, hlab, rfl⟩
    exact ⟨el, ⟨hmem, hlab⟩, rfl⟩

lemma sorted_buildSizesSources (r : SizesResponse) :
    (buildSizesSources r).Pairwise
      (fun a b : PhotoSource => b.width ≤ a.width) := by
  have h := @List.sorted_mergeSort PhotoSource
    (fun a b : PhotoSource => decide (b.width ≤ a.width))
    (fun a b c hab hbc => by
      simp only [decide_eq_true_eq] at *
      omega)
    (fun a b => by
      simp only [Bool.or_eq_true, decide_eq_true_eq]
      omega)
    ((r.size.filter (fun el => WANTED_IMAGE_SIZES.contains el.label)).map
      sourceOfEntry)
  have h' : (buildSizesSources r).Pairwise
      (fun a b : PhotoSource => decide (b.width ≤ a.width) = true) := by
    simpa [buildSizesSources, sourceOfEntry] using h
  exact h'.imp (fun hab => by simpa using hab)

/-- C1: every element of `buildSizesSources` comes from an input entry with
an allow-listed label, every input entry with an allow-listed label
contributes its `PhotoSource` to the output, and the output widths are
non-increasing. -/
theorem buildSizesSources_spec (r : SizesResponse) :
    (∀ s ∈ buildSizesSources r,
        ∃ el ∈ r.size, WANTED_IMAGE_SIZES.contains el.label ∧
          s = sourceOfEntry el)
    ∧ (∀ el ∈ r.size, WANTED_IMAGE_SIZES.contains el.label →
        sourceOfEntry el ∈ buildSizesSources r)
    ∧ (buildSizesSources r).Pairwise
        (fun a b : PhotoSource => b.width ≤ a.width) := by
  refine ⟨fun s hs => mem_buildSizesSources.mp hs,
    fun el hmem hlab => mem_buildSizesSources.mpr ⟨el, hmem, hlab, rfl⟩,
    sorted_buildSizesSources r⟩

/-- Witness for C1 at the spec's end-to-end example: the Medium entry's
label is allow-listed, so its `PhotoSource` is in the output. -/
theorem buildSizesSources_spec_witness :
    sourceOfEntry (SizeEntry.mk "Medium" "http://m" 500 333)
      ∈ buildSizesSources exampleSizes :=
  (buildSizesSources_spec exampleSizes).2.1
    (SizeEntry.mk "Medium" "http://m" 500 333) (by decide) (by decide)

lemma error_bind {α β : Type} (e : String) (f : α → Except String β) :
    (Except.error e : Except String α) >>= f = Except.error e := rfl

lemma ok_bind {α β : Type} (a : α) (f : α → Except String β) :
    (Except.ok a : Except String α) >>= f = f a := rfl

lemma pure_eq_ok {α : Type} (a : α) :
    (pure a : Except String α) = Except.ok a := rfl

lemma mapM_ok_forall {α β : Type} {f : α → Except String β} :
    ∀ {xs : List α} {l : List β}, xs.mapM f = Except.ok l →
      ∀ x ∈ xs, ∃ y, f x = Except.ok y ∧ y ∈ l := by
  intro xs
  induction xs with
  | nil => intro l _ x hx; cases hx
  | cons a as ih =>
    intro l h x hx
    rw [List.mapM_cons] at h
    cases hfa : f a with
    | error e => rw [hfa, error_bind] at h; exact Except.noConfusion h
    | ok y =>
      rw [hfa, ok_bind] at h
      cases hmas : as.mapM f with
      | error e => rw [hmas, error_bind] at h; exact Except.noConfusion h
      | ok ys =>
        rw [hmas, ok_bind, pure_eq_ok] at h
        injection h with h
        subst h
        cases hx with
        | head => exact ⟨y, hfa, List.mem_cons_self _ _⟩
        | tail _ hx' =>
          obtain ⟨z, hz, hzmem⟩ := ih hmas x hx'
          exact ⟨z, hz, List.mem_cons_of_mem _ hzmem⟩

lemma mapM_ok_mem {α β : Type} {f : α → Except String β} :
    ∀ {xs : List α} {l : List β}, xs.mapM f = Except.ok l →
      ∀ y ∈ l, ∃ x ∈ xs, f x = Except.ok y := by
  intro xs
  induction xs with
  | nil =>
    intro l h y hy
    rw [List.mapM_nil] at h
    injection h with h
    subst h
    cases hy
  | cons a as ih =>
    intro l h y hy
    rw [List.mapM_cons] at h
    cases hfa : f a with
    | error e => rw [hfa, error_bind] at h; exact Except.noConfusion h
    | ok z =>
      rw [hfa, ok_bind] at h
      cases hmas : as.mapM f with
      | error e => rw [hmas, error_bind] at h; exact Except.noConfusion h
      | ok ys =>
        rw [hmas, ok_bind, pure_eq_ok] at h
        injection h with h
        subst h
        cases hy with
        | head => exact ⟨a, List.mem_cons_self _ _, hfa⟩
        | tail _ hy' =>
          obtain ⟨x, hxmem, hx⟩ := ih hmas y hy'
          exact ⟨x, List.mem_cons_of_mem _ hxmem, hx⟩

lemma getPhoto_eq_some {photo_id : String} {info : InfoResponse}
    {sizes : SizesResponse} {ph : Photo}
    (h : getPhoto photo_id info sizes = some ph) :
    ph.sources = buildSizesSources sizes
    ∧ ph.mainSource = (buildSizesSources sizes).getLast?
    ∧ ∃ u, (info.urls.filter (fun e => e.type == "photopage")).head? = some u
        ∧ ph.pageUrl = u.content := by
  unfold getPhoto at h
  cases hh : (info.urls.filter (fun e => e.type == "photopage")).head? with
  | none => rw [hh] at h; exact absurd h (by simp)
  | some u =>
    rw [hh] at h
    injection h with h
    subst h
    exact ⟨rfl, rfl, u, rfl, rfl⟩

lemma mkSetPhoto_fields (owner : String) (p : PhotoListEntry)
    (sizes : SizesResponse) :
    (mkSetPhoto owner p sizes).sources = buildSizesSources sizes
    ∧ (mkSetPhoto owner p sizes).mainSource
        = (buildSizesSources sizes).getLast? :=
  ⟨rfl, rfl⟩

lemma getLast?_last_spec {α : Type} (l : List α) :
    (∀ h : l ≠ [], l.getLast? = some (l.getLast h))
    ∧ (l = [] → l.getLast? = none) :=
  ⟨fun h => List.getLast?_eq_getLast l h, fun h => by subst h; rfl⟩

lemma pairwise_getLast_rel {α : Type} {R : α → α → Prop}
    (hrefl : ∀ a, R a a) :
    ∀ {l : List α}, l.Pairwise R → ∀ (h : l ≠ []), ∀ x ∈ l,
      R x (l.getLast h) := by
  intro l
  induction l with
  | nil => intro _ h; exact absurd rfl h
  | cons a t ih =>
    intro hp h x hx
    cases t with
    | nil =>
      have hxa : x = a := by simpa using hx
      subst hxa
      exact hrefl x
    | cons b t' =>
      have hgl : ((a :: b :: t').getLast h)
          = ((b :: t').getLast (by simp)) := List.getLast_cons _
      rw [hgl]
      rcases List.mem_cons.mp hx with rfl | hx'
      · exact (List.pairwise_cons.mp hp).1 _ (List.getLast_mem _)
      · exact ih (List.pairwise_cons.mp hp).2 (by simp) x hx'

lemma photo_last_spec {ph : Photo} {s : SizesResponse}
    (hsrc : ph.sources = buildSizesSources s)
    (hmain : ph.mainSource = ph.sources.getLast?) :
    (∀ h : ph.sources ≠ [], ph.mainSource = some (ph.sources.getLast h))
    ∧ (ph.sources = [] → ph.mainSource = none)
    ∧ (∀ h : ph.sources ≠ [], ∀ x ∈ ph.sources,
        (ph.sources.getLast h).width ≤ x.width) := by
  refine ⟨fun h => by rw [hmain, (getLast?_last_spec _).1 h],
    fun h => by rw [hmain, (getLast?_last_spec _).2 h],
    fun h x hx => ?_⟩
  have hp : ph.sources.Pairwise
      (fun a b : PhotoSource => b.width ≤ a.width) := by
    rw [hsrc]
    exact sorted_buildSizesSources s
  exact pairwise_getLast_rel
    (R := fun a b : PhotoSource => b.width ≤ a.width)
    (fun a => le_refl a.width) hp h x hx

/-- C2: for every `Photo` built by `getPhotoSet` and by `getPhoto`,
`mainSource` is the last element of `sources` when `sources` is non-empty
(and that element is width-minimal among the surviving sources), and
`mainSource` is `none` when `sources` is empty. -/
theorem mainSource_eq_last (resp : PhotoSetResponse)
    (sizeFetch : String → Except String SizesResponse)
    (photo_id : String) (info : InfoResponse) (sizes : SizesResponse) :
    (∀ l, getPhotoSet resp sizeFetch = Except.ok l → ∀ ph ∈ l,
        (∀ h : ph.sources ≠ [],
          ph.mainSource = some (ph.sources.getLast h))
        ∧ (ph.sources = [] → ph.mainSource = none)
        ∧ (∀ h : ph.sources ≠ [], ∀ x ∈ ph.sources,
            (ph.sources.getLast h).width ≤ x.width))
    ∧ (∀ ph, getPhoto photo_id info sizes = some ph →
        (∀ h : ph.sources ≠ [],
          ph.mainSource = some (ph.sources.getLast h))
        ∧ (ph.sources = [] → ph.mainSource = none)
        ∧ (∀ h : ph.sources ≠ [], ∀ x ∈ ph.sources,
            (ph.sources.getLast h).width ≤ x.width)) := by
  constructor
  · intro l hl ph hph
    obtain ⟨p, _, hp⟩ := mapM_ok_mem hl ph hph
    cases hmap : sizeFetch p.id with
    | error e => rw [hmap] at hp; exact absurd hp (by simp [Except.map])
    | ok s =>
      rw [hmap] at hp
      have hph' : mkSetPhoto resp.owner p s = ph := by
        simpa [Except.map] using hp
      subst hph'
      obtain ⟨hsrc, hmain⟩ := mkSetPhoto_fields resp.owner p s
      rw [← hsrc] at hmain
      exact photo_last_spec hsrc hmain
  · intro ph hph
    obtain ⟨hsrc, hmain, -⟩ := getPhoto_eq_some hph
    rw [← hsrc] at hmain
    exact photo_last_spec hsrc hmain

/-- Witness for C2: on the spec's end-to-end example, the single photo of
a one-photo set has `mainSource` = the width-500 Medium entry, the last of
its two sources. -/
theorem mainSource_eq_last_witness :
    (mkSetPhoto "own" (PhotoListEntry.mk "1" "t") exampleSizes).mainSource
      = some (PhotoSource.mk "http://m" 500 333) := by
  have hsrc : (mkSetPhoto "own" (PhotoListEntry.mk "1" "t")
      exampleSizes).sources
      = [PhotoSource.mk "http://l" 1024 683,
         PhotoSource.mk "http://m" 500 333] := by
    simp only [mkSetPhoto]
    simp [buildSizesSources, exampleSizes, WANTED_IMAGE_SIZES,
      List.mergeSort, List.merge, List.splitInTwo, List.splitAt,
      List.splitAt.go]
  have hne : (mkSetPhoto "own" (PhotoListEntry.mk "1" "t")
      exampleSizes).sources ≠ [] := by
    rw [hsrc]; simp
  have h := (mainSource_eq_last
      (PhotoSetResponse.mk "own" [PhotoListEntry.mk "1" "t"])
      (fun _ => Except.ok exampleSizes)
      "1" (InfoResponse.mk "t" []) exampleSizes).1
      [mkSetPhoto "own" (PhotoListEntry.mk "1" "t") exampleSizes]
      rfl
      (mkSetPhoto "own" (PhotoListEntry.mk "1" "t") exampleSizes)
      (List.mem_singleton.mpr rfl)
  have h2 : (mkSetPhoto "own" (PhotoListEntry.mk "1" "t")
      exampleSizes).mainSource
      = (mkSetPhoto "own" (PhotoListEntry.mk "1" "t")
          exampleSizes).sources.getLast? := by
    rw [h.1 hne, List.getLast?_eq_getLast _ hne]
  rw [h2, hsrc]
  rfl

/-- C9: when the info response's URL list has an entry whose type tag is
"photopage", `getPhoto` succeeds on the URL side and the returned photo's
`pageUrl` is the `_content` of the first such entry. -/
theorem getPhoto_pageUrl (photo_id : String) (info : InfoResponse)
    (sizes : SizesResponse) (u : UrlEntry)
    (hu : info.urls.find? (fun e => e.type == "photopage") = some u) :
    ∃ ph, getPhoto photo_id info sizes = some ph
      ∧ ph.pageUrl = u.content := by
  have hh : (info.urls.filter (fun e => e.type == "photopage")).head?
      = some u := by
    rw [List.filter_head?]
    exact hu
  refine ⟨{ id := photo_id
            title := info.title
            pageUrl := u.content
            sources := buildSizesSources sizes
            mainSource := (buildSizesSources sizes).getLast? }, ?_, rfl⟩
  unfold getPhoto
  rw [hh]

/-- Witness for C9: an info response with a non-photopage entry first and
two photopage entries; the returned `pageUrl` is the first photopage
entry's content. -/
theorem getPhoto_pageUrl_witness :
    ∃ ph, getPhoto "1"
        (InfoResponse.mk "title"
          [UrlEntry.mk "license" "https://x",
           UrlEntry.mk "photopage" "https://p1",
           UrlEntry.mk "photopage" "https://p2"])
        exampleSizes = some ph
      ∧ ph.pageUrl = "https://p1" :=
  getPhoto_pageUrl "1"
    (InfoResponse.mk "title"
      [UrlEntry.mk "license" "https://x",
       UrlEntry.mk "photopage" "https://p1",
       UrlEntry.mk "photopage" "https://p2"])
    exampleSizes (UrlEntry.mk "photopage" "https://p1") rfl

/-- C6: if any one photo's size-fetch fails, the whole `getPhotoSet` call
fails, regardless of the other photos' fetches; no list of photos is
returned. -/
theorem getPhotoSet_fails_on_any_failure (resp : PhotoSetResponse)
    (sizeFetch : String → Except String SizesResponse)
    (p : PhotoListEntry) (hp : p ∈ resp.photo)
    (e : String) (he : sizeFetch p.id = Except.error e) :
    ∃ err, getPhotoSet resp sizeFetch = Except.error err := by
  cases h : getPhotoSet resp sizeFetch with
  | error err => exact ⟨err, rfl⟩
  | ok l =>
    obtain ⟨y, hy, -⟩ := mapM_ok_forall h p hp
    rw [he] at hy
    exact absurd hy (by simp [Except.map])

/-- Witness for C6: a two-photo set where the first size-fetch succeeds
and the second fails; the whole call fails. -/
theorem getPhotoSet_fails_on_any_failure_witness :
    ∃ err, getPhotoSet
        (PhotoSetResponse.mk "own"
          [PhotoListEntry.mk "1" "a", PhotoListEntry.mk "2" "b"])
        (fun pid => if pid == "2" then Except.error "boom"
          else Except.ok exampleSizes)
      = Except.error err :=
  getPhotoSet_fails_on_any_failure
    (PhotoSetResponse.mk "own"
      [PhotoListEntry.mk "1" "a", PhotoListEntry.mk "2" "b"])
    (fun pid => if pid == "2" then Except.error "boom"
      else Except.ok exampleSizes)
    (PhotoListEntry.mk "2" "b") (by simp)
    "boom" rfl

/-- C3: a transport call whose first two attempts fail and whose third
succeeds returns the third attempt's parsed body; a call whose three
attempts all fail fails with the third attempt's error.  Both conclusions
hold for every `http` oracle with those outcomes on attempts 0–2, so the
result never depends on a fourth attempt. -/
theorem callFlickr_retry {α : Type} (apiKey methodName : String)
    (params : List (String × String)) (v : α) (e0 e1 e2 : String) :
    (∀ http : String → Nat → Except String α,
      http (buildFlickrUrl apiKey methodName params) 0 = Except.error e0 →
      http (buildFlickrUrl apiKey methodName params) 1 = Except.error e1 →
      http (buildFlickrUrl apiKey methodName params) 2 = Except.ok v →
      callFlickr http apiKey methodName params 0 = Except.ok v)
    ∧ (∀ http : String → Nat → Except String α,
      http (buildFlickrUrl apiKey methodName params) 0 = Except.error e0 →
      http (buildFlickrUrl apiKey methodName params) 1 = Except.error e1 →
      http (buildFlickrUrl apiKey methodName params) 2 = Except.error e2 →
      callFlickr http apiKey methodName params 0 = Except.error e2) := by
  constructor <;>
  · intro http h0 h1 h2
    unfold callFlickr callFlickr callFlickr
    simp [h0, h1, h2]

/-- Witness for C3: an oracle failing on attempts 0 and 1 and succeeding
on attempt 2; the call returns the third attempt's body. -/
theorem callFlickr_retry_witness :
    callFlickr
      (fun _ n => if n == 2 then Except.ok "body" else Except.error "boom")
      "key" "flickr.test.echo" [] 0
      = Except.ok "body" :=
  (callFlickr_retry "key" "flickr.test.echo" [] "body" "boom" "boom"
      "unused").1
    (fun _ n => if n == 2 then Except.ok "body" else Except.error "boom")
    rfl rfl rfl

/-- C8 counterexample: after three failed attempts `callFlickr` fails with
the bare root-cause error; two calls whose request URLs differ produce the
identical failure value, so the failure does not carry the offending URL
(no `TransportError` wrapper exists in the code — the URL only goes to the
error log). -/
theorem callFlickr_error_carries_no_url :
    callFlickr (fun _ _ => (Except.error "network error" : Except String String))
        "keyA" "m" [] 0
      = Except.error "network error"
    ∧ callFlickr (fun _ _ => (Except.error "network error" : Except String String))
        "keyB" "m" [] 0
      = Except.error "network error"
    ∧ buildFlickrUrl "keyA" "m" [] ≠ buildFlickrUrl "keyB" "m" [] := by
  refine ⟨?_, ?_, ?_⟩
  · unfold callFlickr callFlickr callFlickr
    simp
  · unfold callFlickr callFlickr callFlickr
    simp
  · simp [buildFlickrUrl, FLICKR_API_BASE_URL, FLICKR_BASE_PARAMETERS]

/-- C8 (amended): when all three attempts fail, `callFlickr` propagates
the third attempt's root-cause error unchanged, whatever the API key,
method and parameters (hence whatever the URL); no wrapper value carrying
the URL is produced. -/
theorem callFlickr_exhausted_error {α : Type} (e0 e1 e2 : String)
    (apiKey methodName : String) (params : List (String × String))
    (http : String → Nat → Except String α)
    (h0 : http (buildFlickrUrl apiKey methodName params) 0 = Except.error e0)
    (h1 : http (buildFlickrUrl apiKey methodName params) 1 = Except.error e1)
    (h2 : http (buildFlickrUrl apiKey methodName params) 2 = Except.error e2) :
    callFlickr http apiKey methodName params 0 = Except.error e2 := by
  unfold callFlickr callFlickr callFlickr
  simp [h0, h1, h2]

/-- Witness for the amended C8: three identical failures propagate the
root cause itself. -/
theorem callFlickr_exhausted_error_witness :
    callFlickr (fun _ _ => (Except.error "econnreset" : Except String String))
        "key" "flickr.photos.getSizes" [("photo_id", "1")] 0
      = Except.error "econnreset" :=
  callFlickr_exhausted_error "econnreset" "econnreset" "econnreset"
    "key" "flickr.photos.getSizes" [("photo_id", "1")]
    (fun _ _ => Except.error "econnreset") rfl rfl rfl

lemma foldl_push_filter {α β : Type} (q : α → Bool) (g : α → β) :
    ∀ (keys : List α) (acc : List β),
      keys.foldl (fun res k => if q k then res ++ [g k] else res) acc
        = acc ++ (keys.filter q).map g := by
  intro keys
  induction keys with
  | nil => intro acc; simp
  | cons k ks ih =>
    intro acc
    by_cases h : q k <;> simp [h, List.filter_cons, ih]

lemma buildRecentSources_eq (p : List (String × JsValue)) :
    buildRecentSources p
      = ((p.map Prod.fst).filter (fun k => strStartsWith k "url_")).map
          (fun k => RecentSource.mk (jsGet p k)
            (jsGet p ("height_" ++ k.drop 4))
            (jsGet p ("width_" ++ k.drop 4))) := by
  simp only [buildRecentSources]
  rw [foldl_push_filter (fun k => strStartsWith k "url_")
    (fun k => RecentSource.mk (jsGet p k)
      (jsGet p ("height_" ++ k.drop 4))
      (jsGet p ("width_" ++ k.drop 4)))]
  simp

lemma jsGet_eq_undef_of_not_mem {p : List (String × JsValue)} {key : String}
    (h : key ∉ p.map Prod.fst) : jsGet p key = JsValue.undef := by
  unfold jsGet
  rw [List.find?_eq_none.mpr]
  intro kv hkv
  simp only [beq_iff_eq]
  intro hc
  exact h (hc ▸ List.mem_map_of_mem Prod.fst hkv)

/-- C10: `buildRecentSources` emits exactly one entry per key starting
with `url_` — even when the matching `width_`/`height_` field is absent
from the record, the entry is kept and its width/height is the lookup of
the absent key, which is `undefined`. -/
theorem buildRecentSources_per_url_key (p : List (String × JsValue)) :
    ((buildRecentSources p).length
      = ((p.map Prod.fst).filter (fun k => strStartsWith k "url_")).length)
    ∧ (∀ k, k ∈ p.map Prod.fst → strStartsWith k "url_" = true →
        RecentSource.mk (jsGet p k) (jsGet p ("height_" ++ k.drop 4))
          (jsGet p ("width_" ++ k.drop 4)) ∈ buildRecentSources p)
    ∧ (∀ key, key ∉ p.map Prod.fst → jsGet p key = JsValue.undef) := by
  refine ⟨?_, ?_, fun key h => jsGet_eq_undef_of_not_mem h⟩
  · rw [buildRecentSources_eq, List.length_map]
  · intro k hk hsw
    rw [buildRecentSources_eq]
    exact List.mem_map_of_mem _ (List.mem_filter.mpr ⟨hk, hsw⟩)

/-- Witness for C10: with `url_z` present but `width_z`/`height_z` absent,
one entry is emitted whose width and height are `undefined`. -/
theorem buildRecentSources_per_url_key_witness :
    RecentSource.mk (JsValue.str "https://z") JsValue.undef JsValue.undef
      ∈ buildRecentSources recentRecordNoDims :=
  (buildRecentSources_per_url_key recentRecordNoDims).2.1
    "url_z" (by decide) (by decide)

/-- C7: for any record (any field declaration order) whose `url_`-keys
are exactly `url_c` and `url_z`, the derived sources are, up to order,
exactly the c-triple and the z-triple. -/
theorem buildRecentSources_c_z (p : List (String × JsValue))
    (hnd : (p.map Prod.fst).Nodup)
    (hc : "url_c" ∈ p.map Prod.fst) (hz : "url_z" ∈ p.map Prod.fst)
    (honly : ∀ k ∈ p.map Prod.fst, strStartsWith k "url_" = true →
      k = "url_c" ∨ k = "url_z") :
    List.Perm (buildRecentSources p)
      [RecentSource.mk (jsGet p "url_c") (jsGet p "height_c")
        (jsGet p "width_c"),
       RecentSource.mk (jsGet p "url_z") (jsGet p "height_z")
        (jsGet p "width_z")] := by
  have hks : List.Perm
      ((p.map Prod.fst).filter (fun k => strStartsWith k "url_"))
      ["url_c", "url_z"] := by
    apply (List.perm_ext_iff_of_nodup (hnd.filter _) (by decide)).mpr
    intro a
    simp only [List.mem_filter, List.mem_cons, List.not_mem_nil, or_false]
    constructor
    · rintro ⟨ha, hsw⟩
      exact honly a ha hsw
    · rintro (rfl | rfl)
      · exact ⟨hc, by decide⟩
      · exact ⟨hz, by decide⟩
  rw [buildRecentSources_eq]
  exact hks.map (fun k => RecentSource.mk (jsGet p k)
    (jsGet p ("height_" ++ k.drop 4)) (jsGet p ("width_" ++ k.drop 4)))

/-- Witness for C7 at a record declaring the z fields before the c fields:
the two derived entries are the c- and z-triples. -/
theorem buildRecentSources_c_z_witness :
    List.Perm (buildRecentSources recentRecordZC)
      [RecentSource.mk (JsValue.str "https://c") (JsValue.num 600)
        (JsValue.num 800),
       RecentSource.mk (JsValue.str "https://z") (JsValue.num 480)
        (JsValue.num 640)] :=
  buildRecentSources_c_z recentRecordZC (by decide) (by decide) (by decide)
    (by decide)

/-- C4 counterexample: a recent-photos record with a z size but no
`url_c` field yields a photo whose `sources` is non-empty while
`mainSource` (the c-triple, here all-`undefined`) is not an element of
`sources` — and `mainSource` is not absent either. -/
theorem recent_mainSource_not_mem :
    getRecentPhotos [recentRecordZ] = [mkRecentPhoto recentRecordZ]
    ∧ (mkRecentPhoto recentRecordZ).sources ≠ []
    ∧ (mkRecentPhoto recentRecordZ).mainSource
        ∉ (mkRecentPhoto recentRecordZ).sources :=
  ⟨rfl, by decide, by decide⟩

/-- C4 (amended): for `getPhotoSet` and `getPhoto` photos, `mainSource`
is an element of `sources` when `sources` is non-empty and is absent when
`sources` is empty; for `getRecentPhotos` photos, `mainSource` is the
c-triple and is an element of `sources` whenever the record has a
`url_c` field. -/
theorem mainSource_mem_sources (resp : PhotoSetResponse)
    (sizeFetch : String → Except String SizesResponse)
    (photo_id : String) (info : InfoResponse) (sizes : SizesResponse) :
    (∀ l, getPhotoSet resp sizeFetch = Except.ok l → ∀ ph ∈ l,
        (ph.sources ≠ [] → ∃ m, ph.mainSource = some m ∧ m ∈ ph.sources)
      ∧ (ph.sources = [] → ph.mainSource = none))
    ∧ (∀ ph, getPhoto photo_id info sizes = some ph →
        (ph.sources ≠ [] → ∃ m, ph.mainSource = some m ∧ m ∈ ph.sources)
      ∧ (ph.sources = [] → ph.mainSource = none))
    ∧ (∀ p : List (String × JsValue), "url_c" ∈ p.map Prod.fst →
        (mkRecentPhoto p).mainSource ∈ (mkRecentPhoto p).sources) := by
  refine ⟨?_, ?_, ?_⟩
  · intro l hl ph hph
    obtain ⟨p, _, hp⟩ := mapM_ok_mem hl ph hph
    cases hmap : sizeFetch p.id with
    | error e => rw [hmap] at hp; exact absurd hp (by simp [Except.map])
    | ok s =>
      rw [hmap] at hp
      have hph' : mkSetPhoto resp.owner p s = ph := by
        simpa [Except.map] using hp
      subst hph'
      obtain ⟨hsrc, hmain⟩ := mkSetPhoto_fields resp.owner p s
      rw [← hsrc] at hmain
      constructor
      · intro h
        refine ⟨_, by rw [hmain, (getLast?_last_spec _).1 h], ?_⟩
        exact List.getLast_mem h
      · intro h
        rw [hmain, (getLast?_last_spec _).2 h]
  · intro ph hph
    obtain ⟨hsrc, hmain, -⟩ := getPhoto_eq_some hph
    rw [← hsrc] at hmain
    constructor
    · intro h
      refine ⟨_, by rw [hmain, (getLast?_last_spec _).1 h], ?_⟩
      exact List.getLast_mem h
    · intro h
      rw [hmain, (getLast?_last_spec _).2 h]
  · intro p hc
    show RecentSource.mk (jsGet p "url_c") (jsGet p "height_c")
      (jsGet p "width_c") ∈ buildRecentSources p
    rw [buildRecentSources_eq]
    exact List.mem_map_of_mem _ (List.mem_filter.mpr ⟨hc, by decide⟩)

/-- Witness for the amended C4: on a record carrying `url_c`, the
recent-photo `mainSource` is among its `sources`. -/
theorem mainSource_mem_sources_witness :
    (mkRecentPhoto recentRecordZC).mainSource
      ∈ (mkRecentPhoto recentRecordZC).sources :=
  (mainSource_mem_sources (PhotoSetResponse.mk "o" [])
      (fun _ => Except.error "e") "1" exampleInfo exampleSizes).2.2
    recentRecordZC (by decide)

/-- C5 counterexample: a recent-photos record declaring the 640-wide z
size before the 800-wide c size yields `sources` in that order — widths
increasing, not largest-first. -/
theorem recent_sources_unsorted :
    getRecentPhotos [recentRecordZC] = [mkRecentPhoto recentRecordZC]
    ∧ (mkRecentPhoto recentRecordZC).sources.map RecentSource.width
        = [JsValue.num 640, JsValue.num 800]
    ∧ ¬ (mkRecentPhoto recentRecordZC).sources.Pairwise
        (fun a b => ∀ x y : Int, a.width = JsValue.num x →
          b.width = JsValue.num y → y ≤ x) := by
  refine ⟨rfl, by decide, ?_⟩
  intro h
  have hs : (mkRecentPhoto recentRecordZC).sources
      = [RecentSource.mk (JsValue.str "https://z") (JsValue.num 480)
          (JsValue.num 640),
         RecentSource.mk (JsValue.str "https://c") (JsValue.num 600)
          (JsValue.num 800)] := rfl
  rw [hs] at h
  have h01 := (List.pairwise_cons.mp h).1 _ (List.mem_singleton.mpr rfl)
    640 800 rfl rfl
  omega

/-- C5 (amended): for `getPhotoSet` and `getPhoto` photos (the
`buildSizesSources` paths), `sources` is ordered largest-width first;
`getRecentPhotos` sources instead follow the record's field order. -/
theorem sources_sorted_desc (resp : PhotoSetResponse)
    (sizeFetch : String → Except String SizesResponse)
    (photo_id : String) (info : InfoResponse) (sizes : SizesResponse) :
    (∀ l, getPhotoSet resp sizeFetch = Except.ok l → ∀ ph ∈ l,
        ph.sources.Pairwise
          (fun a b : PhotoSource => b.width ≤ a.width))
    ∧ (∀ ph, getPhoto photo_id info sizes = some ph →
        ph.sources.Pairwise
          (fun a b : PhotoSource => b.width ≤ a.width)) := by
  constructor
  · intro l hl ph hph
    obtain ⟨p, _, hp⟩ := mapM_ok_mem hl ph hph
    cases hmap : sizeFetch p.id with
    | error e => rw [hmap] at hp; exact absurd hp (by simp [Except.map])
    | ok s =>
      rw [hmap] at hp
      have hph' : mkSetPhoto resp.owner p s = ph := by
        simpa [Except.map] using hp
      subst hph'
      rw [(mkSetPhoto_fields resp.owner p s).1]
      exact sorted_buildSizesSources s
  · intro ph hph
    rw [(getPhoto_eq_some hph).1]
    exact sorted_buildSizesSources sizes

/-- Witness for the amended C5: the photo `getPhoto` builds from the
example info and sizes responses has width-non-increasing sources. -/
theorem sources_sorted_desc_witness :
    (Photo.mk "1" "https://p1" "title"
      ((buildSizesSources exampleSizes).getLast?)
      (buildSizesSources exampleSizes)).sources.Pairwise
      (fun a b : PhotoSource => b.width ≤ a.width) :=
  (sources_sorted_desc (PhotoSetResponse.mk "o" [])
      (fun _ => Except.error "e") "1" exampleInfo exampleSizes).2
    (Photo.mk "1" "https://p1" "title"
      ((buildSizesSources exampleSizes).getLast?)
      (buildSizesSources exampleSizes))
    rfl

end Flickr
